import Mathlib

/-!
# MercaControl service worker (`sw.js`): cache-strategy engine

A shallow embedding of the three event handlers of `sw.js` that touch the
platform cache (`install`, `activate`, `fetch`) over an explicit model of the
Cache API:

* a `Cache` is an ordered list of `(URL, Response)` entries (`cache.match`,
  `cache.put`, `cache.add`);
* `caches` (the `CacheStorage`) is an ordered list of named caches
  (`caches.open`, `caches.keys`, `caches.delete`, `caches.match`);
* the network is an explicit input: the outcome of `fetch`.

Promise chains are sequenced: a handler returns the value its promise
settles to together with the storage after all the work it started
(including writes that are not awaited) has completed.

JavaScript strings are modelled by Lean strings; the substring and suffix
tests of the source are against ASCII patterns, for which a code-unit and a
code-point comparison agree.

Outside the model: failures of the storage itself (`caches.open`, `put` and
`delete` are taken to succeed), the `Vary` header in cache lookups, and the
refusal of `cache.put` to store a URL that is not HTTP(S).
-/

namespace SW

/-! ## Data model -/

/-- A parsed URL, as `new URL(request.url)` exposes it.  The fragment is not
part of the model: the cache ignores it when comparing requests. -/
structure URL where
  protocol : String
  hostname : String
  port : String
  pathname : String
  search : String
deriving DecidableEq, Repr

/-- The request of a fetch event. -/
structure Request where
  method : String
  url : URL
deriving DecidableEq, Repr

/-- A response: status code and body. -/
structure Response where
  status : Nat
  body : String
deriving DecidableEq, Repr

/-- The outcome of the platform `fetch(request)`: the promise resolves to a
response (of any status) or rejects with a network error. -/
inductive FetchResult where
  | response (r : Response)
  | networkError
deriving DecidableEq, Repr

/-- What the page gets from a fetch event: the handler did not call
`respondWith` (the browser handles the request itself), it answered with a
response, or the promise given to `respondWith` settled without a response
(resolved to `undefined`), which the page sees as a failed request. -/
inductive Reply where
  | passThrough
  | respond (r : Response)
  | fail
deriving DecidableEq, Repr

/-- One cache: entries in insertion order, at most one per URL. -/
abbrev Cache := List (URL × Response)

/-- The cache storage of the origin: named caches in creation order. -/
abbrev CacheStorage := List (String × Cache)

/-- Origin the worker script is served from; relative URLs resolve against it. -/
structure Origin where
  protocol : String
  hostname : String
  port : String
deriving DecidableEq, Repr

/-- A URL as written in the worker's constants: a root-relative path such as
`'/index.html'`, or an absolute URL. -/
inductive UrlRef where
  | path (p : String)
  | absolute (u : URL)
deriving DecidableEq, Repr

/-- Resolution of a URL constant against the worker's origin. -/
def resolve (o : Origin) : UrlRef → URL
  | .path p => ⟨o.protocol, o.hostname, o.port, p, ""⟩
  | .absolute u => u

/-- The constants at the top of `sw.js`, and the origin the worker runs in. -/
structure Config where
  origin : Origin
  CACHE_NAME : String
  OFFLINE_URL : UrlRef
  PRECACHE_ASSETS : List UrlRef

/-- The values `sw.js` gives to its constants. -/
def swConfig (o : Origin) : Config where
  origin := o
  CACHE_NAME := "mercacontrol-v1"
  OFFLINE_URL := .path "/index.html"
  PRECACHE_ASSETS :=
    [ .path "/",
      .path "/index.html",
      .path "/manifest.json",
      .path "/app.jsx",
      .absolute ⟨"https:", "unpkg.com", "", "/react@18/umd/react.production.min.js", ""⟩,
      .absolute ⟨"https:", "unpkg.com", "", "/react-dom@18/umd/react-dom.production.min.js", ""⟩,
      .absolute ⟨"https:", "unpkg.com", "", "/@babel/standalone/babel.min.js", ""⟩ ]

/-! ## String tests of the source -/

/-- Substring test on character lists. -/
def includesChars (pat : List Char) : List Char → Bool
  | [] => pat.isEmpty
  | c :: cs => pat.isPrefixOf (c :: cs) || includesChars pat cs

/-- JavaScript `s.includes(pat)`. -/
def includes (s pat : String) : Bool := includesChars pat.data s.data

/-- JavaScript `s.endsWith(suffix)`. -/
def endsWith (s suffix : String) : Bool := suffix.data.reverse.isPrefixOf s.data.reverse

/-! ## Cache API -/

/-- Lookup `cache.match(url)`: the first entry stored under the URL. -/
def cacheMatch : Cache → URL → Option Response
  | [], _ => none
  | (k, r) :: rest, u => if k = u then some r else cacheMatch rest u

/-- Removal `cache.delete(url)` of the entries stored under the URL. -/
def cacheDelete : Cache → URL → Cache
  | [], _ => []
  | (k, r) :: rest, u => if k = u then cacheDelete rest u else (k, r) :: cacheDelete rest u

/-- Write `cache.put(url, response)`: any entry under the URL is removed and
the new one is appended. -/
def cachePut (c : Cache) (u : URL) (r : Response) : Cache :=
  cacheDelete c u ++ [(u, r)]

/-- Lookup `caches.match(url)`: the caches are searched in creation order and
the first match wins. -/
def cachesMatch : CacheStorage → URL → Option Response
  | [], _ => none
  | (_, c) :: rest, u =>
    match cacheMatch c u with
    | some r => some r
    | none => cachesMatch rest u

/-- Names `caches.keys()`. -/
def cachesKeys (cs : CacheStorage) : List String := cs.map Prod.fst

/-- Removal `caches.delete(name)`. -/
def cachesDelete (cs : CacheStorage) (name : String) : CacheStorage :=
  cs.filter (fun p => p.1 ≠ name)

/-- The cache called `name`, if the storage has one. -/
def cachesGet : CacheStorage → String → Option Cache
  | [], _ => none
  | (n, c) :: rest, name => if n = name then some c else cachesGet rest name

/-- The chain `caches.open(name).then(cache => ...)`: the cache called `name`
is created, empty and last in order, when the storage has none of that name,
and the writes `f` of the callback are applied to it. -/
def withOpen : CacheStorage → String → (Cache → Cache) → CacheStorage
  | [], name, f => [(name, f [])]
  | (n, c) :: rest, name, f =>
    if n = name then (n, f c) :: rest else (n, c) :: withOpen rest name f

/-- The chain `caches.open(name).then(cache => cache.put(url, response))`. -/
def openPut (cs : CacheStorage) (name : String) (u : URL) (r : Response) : CacheStorage :=
  withOpen cs name (fun c => cachePut c u r)

/-- The entry the cache called `name` holds under `u`. -/
def entryAt (cs : CacheStorage) (name : String) (u : URL) : Option Response :=
  (cachesGet cs name).bind (fun c => cacheMatch c u)

/-! ## Install -/

/-- Settlement of a promise. -/
inductive Settled (α : Type) where
  | fulfilled (value : α)
  | rejected (reason : String)
deriving DecidableEq, Repr

/-- Statuses for which `response.ok` holds and which `cache.add` accepts:
the range 200 to 299, the partial-content status 206 excepted. -/
def addable (r : Response) : Bool :=
  200 ≤ r.status && r.status ≤ 299 && r.status != 206

/-- The call `cache.add(url)`: fetch the URL and store the response; the
promise rejects when the fetch fails or the status is not acceptable. -/
def cacheAdd (net : URL → FetchResult) (c : Cache) (u : URL) : Settled Cache :=
  match net u with
  | .networkError => .rejected "TypeError: Failed to fetch"
  | .response r =>
    if addable r then .fulfilled (cachePut c u r) else .rejected "TypeError: Request failed"

/-- One precache step, `cache.add(url).catch(err => console.warn(...))`: a
rejection is logged and the cache is left as it was. -/
def addCaught (net : URL → FetchResult) (c : Cache) (u : URL) : Cache :=
  match cacheAdd net c u with
  | .fulfilled c' => c'
  | .rejected _ => c

/-- The install handler: open the current cache, add every precache asset
with its own `catch`, wait with `Promise.allSettled` for all of them, then
`skipWaiting`.  The result is the settlement of the promise given to
`waitUntil`, carrying the storage the handler leaves: the rejection of a
`cache.add` is caught, and neither `Promise.allSettled` nor `skipWaiting`
rejects. -/
def install (cfg : Config) (net : URL → FetchResult) (cs : CacheStorage) :
    Settled CacheStorage :=
  .fulfilled (withOpen cs cfg.CACHE_NAME
    (fun cache => (cfg.PRECACHE_ASSETS.map (resolve cfg.origin)).foldl (addCaught net) cache))

/-! ## Activate -/

/-- The activate handler: every cache whose name differs from `CACHE_NAME`
is deleted. -/
def activate (cfg : Config) (cs : CacheStorage) : CacheStorage :=
  ((cachesKeys cs).filter (fun key => key ≠ cfg.CACHE_NAME)).foldl cachesDelete cs

/-! ## Fetch -/

/-- Path test of the app-shell branch. -/
def isAppShellPath (pathname : String) : Bool :=
  pathname = "/" || pathname = "/index.html" || endsWith pathname ".jsx"

/-- Host test of the CDN branch. -/
def isCdnHost (hostname : String) : Bool :=
  includes hostname "unpkg.com" || includes hostname "fonts.googleapis.com" ||
    includes hostname "fonts.gstatic.com"

/-- The step shared by the three branches once `fetch` has resolved:
`if (response && response.status === 200)` the response is written to the
current cache. -/
def storeIfOk (cfg : Config) (cs : CacheStorage) (u : URL) (r : Response) : CacheStorage :=
  if r.status = 200 then openPut cs cfg.CACHE_NAME u r else cs

/-- Settlement of a promise for an optional response given to `respondWith`. -/
def replyOf : Option Response → Reply
  | some r => .respond r
  | none => .fail

/-- JavaScript `a || b` where `a` is a promise: a promise object is truthy
whatever it settles to, so the expression is `a` and `b` is never evaluated.
The arguments are the values the two promises would settle to. -/
def promiseOr (a _b : Option Response) : Option Response := a

/-- App-shell branch: cache first, background refresh on a hit; on a miss the
network, and the offline document when the network fails. -/
def cacheFirstRefresh (cfg : Config) (req : Request) (cs : CacheStorage) (net : FetchResult) :
    Reply × CacheStorage :=
  match cachesMatch cs req.url with
  | some cached =>
    match net with
    | .response r => (.respond cached, storeIfOk cfg cs req.url r)
    | .networkError => (.respond cached, cs)
  | none =>
    match net with
    | .response r => (.respond r, storeIfOk cfg cs req.url r)
    | .networkError => (replyOf (cachesMatch cs (resolve cfg.origin cfg.OFFLINE_URL)), cs)

/-- CDN branch, `cached || fetch(request)...`: the cached entry when the
lookup finds one (a response object is truthy, `undefined` is not); on a miss
the network, and an empty 503 when the network fails. -/
def cacheFirstStrict (cfg : Config) (req : Request) (cs : CacheStorage) (net : FetchResult) :
    Reply × CacheStorage :=
  match cachesMatch cs req.url with
  | some cached => (.respond cached, cs)
  | none =>
    match net with
    | .response r => (.respond r, storeIfOk cfg cs req.url r)
    | .networkError => (.respond ⟨503, ""⟩, cs)

/-- Remaining requests: network first; when the network fails,
`caches.match(request) || caches.match(OFFLINE_URL)`. -/
def networkFirstFallback (cfg : Config) (req : Request) (cs : CacheStorage) (net : FetchResult) :
    Reply × CacheStorage :=
  match net with
  | .response r => (.respond r, storeIfOk cfg cs req.url r)
  | .networkError =>
    (replyOf (promiseOr (cachesMatch cs req.url)
      (cachesMatch cs (resolve cfg.origin cfg.OFFLINE_URL))), cs)

/-- The fetch handler.  `net` is the outcome of the one `fetch(request)` the
handler may issue; the result is the reply to the page and the storage once
the handler's writes have completed. -/
def fetchHandler (cfg : Config) (req : Request) (cs : CacheStorage) (net : FetchResult) :
    Reply × CacheStorage :=
  if req.method ≠ "GET" then (.passThrough, cs)
  else if req.url.protocol = "chrome-extension:" then (.passThrough, cs)
  else if isAppShellPath req.url.pathname then cacheFirstRefresh cfg req cs net
  else if isCdnHost req.url.hostname then cacheFirstStrict cfg req cs net
  else networkFirstFallback cfg req cs net

/-- Strategy classes of the router. -/
inductive StrategyClass where
  | passThrough
  | appShell
  | cdnAsset
  | generic
deriving DecidableEq, Repr

/-- The branch of the fetch handler a request takes. -/
def classify (req : Request) : StrategyClass :=
  if req.method ≠ "GET" then .passThrough
  else if req.url.protocol = "chrome-extension:" then .passThrough
  else if isAppShellPath req.url.pathname then .appShell
  else if isCdnHost req.url.hostname then .cdnAsset
  else .generic

/-- Dispatch on the strategy class. -/
def runStrategy (cfg : Config) (req : Request) (cs : CacheStorage) (net : FetchResult) :
    StrategyClass → Reply × CacheStorage
  | .passThrough => (.passThrough, cs)
  | .appShell => cacheFirstRefresh cfg req cs net
  | .cdnAsset => cacheFirstStrict cfg req cs net
  | .generic => networkFirstFallback cfg req cs net

/-- No cache that `caches.match` consults before the cache called `name` holds
an entry under `u` (every cache counts as earlier when there is none called
`name`: `caches.open` then creates it last). -/
def noEarlierEntry : CacheStorage → String → URL → Bool
  | [], _, _ => true
  | (n, c) :: rest, name, u =>
    decide (n = name) || ((cacheMatch c u).isNone && noEarlierEntry rest name u)

/-! ## Sample inputs -/

/-- An origin for the worker. -/
def exOrigin : Origin := ⟨"https:", "mercacontrol.example", ""⟩

/-- The configuration of `sw.js` at the sample origin. -/
def exConfig : Config := swConfig exOrigin

/-- An `https:` URL without port or query. -/
def exUrl (hostname pathname : String) : URL := ⟨"https:", hostname, "", pathname, ""⟩

/-- A GET request. -/
def exGet (hostname pathname : String) : Request := ⟨"GET", exUrl hostname pathname⟩

/-! ## Lemmas on the cache model -/

theorem cacheMatch_append (c d : Cache) (u : URL) :
    cacheMatch (c ++ d) u = (cacheMatch c u).orElse (fun _ => cacheMatch d u) := by
  induction c with
  | nil => simp [cacheMatch]
  | cons e rest ih =>
    obtain ⟨k, r⟩ := e
    by_cases h : k = u
    · simp [cacheMatch, h]
    · simp [cacheMatch, h, ih]

theorem cacheMatch_cacheDelete_self (c : Cache) (u : URL) :
    cacheMatch (cacheDelete c u) u = none := by
  induction c with
  | nil => simp [cacheDelete, cacheMatch]
  | cons e rest ih =>
    obtain ⟨k, r⟩ := e
    by_cases h : k = u
    · simp [cacheDelete, h, ih]
    · simp [cacheDelete, h, cacheMatch, ih]

theorem cacheMatch_cacheDelete_ne (c : Cache) {u k : URL} (hk : k ≠ u) :
    cacheMatch (cacheDelete c u) k = cacheMatch c k := by
  induction c with
  | nil => simp [cacheDelete, cacheMatch]
  | cons e rest ih =>
    obtain ⟨k', r⟩ := e
    by_cases h : k' = u
    · have hne : ¬ k' = k := by rw [h]; exact fun e => hk e.symm
      simp [cacheDelete, h, cacheMatch, ih]
      rw [h] at hne
      simp [hne]
    · by_cases h2 : k' = k
      · subst h2
        simp [cacheDelete, h, cacheMatch]
      · simp [cacheDelete, h, cacheMatch, h2, ih]

/-- A written entry is read back. -/
theorem cacheMatch_cachePut_self (c : Cache) (u : URL) (r : Response) :
    cacheMatch (cachePut c u r) u = some r := by
  simp [cachePut, cacheMatch_append, cacheMatch_cacheDelete_self, cacheMatch]

/-- A write leaves the other keys alone. -/
theorem cacheMatch_cachePut_ne (c : Cache) {u k : URL} (r : Response) (hk : k ≠ u) :
    cacheMatch (cachePut c u r) k = cacheMatch c k := by
  have hne : ¬ u = k := fun e => hk e.symm
  simp [cachePut, cacheMatch_append, cacheMatch_cacheDelete_ne c hk, cacheMatch, hne]

theorem cachesGet_withOpen_self (cs : CacheStorage) (name : String) (f : Cache → Cache) :
    cachesGet (withOpen cs name f) name = some (f ((cachesGet cs name).getD [])) := by
  induction cs with
  | nil => simp [withOpen, cachesGet]
  | cons p rest ih =>
    obtain ⟨n, c⟩ := p
    by_cases h : n = name
    · simp [withOpen, cachesGet, h]
    · simp [withOpen, cachesGet, h, ih]

theorem cachesGet_withOpen_ne (cs : CacheStorage) {name n : String} (f : Cache → Cache)
    (hn : n ≠ name) : cachesGet (withOpen cs name f) n = cachesGet cs n := by
  induction cs with
  | nil =>
    have : ¬ name = n := fun e => hn e.symm
    simp [withOpen, cachesGet, this]
  | cons p rest ih =>
    obtain ⟨m, c⟩ := p
    by_cases h : m = name
    · have : ¬ name = n := fun e => hn e.symm
      simp [withOpen, cachesGet, h, this]
    · by_cases h2 : m = n
      · subst h2
        simp [withOpen, cachesGet, h]
      · simp [withOpen, cachesGet, h, h2, ih]

/-- After `openPut` the named cache holds the response under the key. -/
theorem entryAt_openPut_self (cs : CacheStorage) (name : String) (u : URL) (r : Response) :
    entryAt (openPut cs name u r) name u = some r := by
  simp [entryAt, openPut, cachesGet_withOpen_self, cacheMatch_cachePut_self]

/-- The write of `openPut` touches one key of one cache. -/
theorem entryAt_openPut_other (cs : CacheStorage) (name : String) (u : URL) (r : Response)
    (n : String) (k : URL) (h : n ≠ name ∨ k ≠ u) :
    entryAt (openPut cs name u r) n k = entryAt cs n k := by
  by_cases hn : n = name
  · have hk : k ≠ u := by
      cases h with
      | inl h => exact absurd hn h
      | inr h => exact h
    subst hn
    simp only [entryAt, openPut, cachesGet_withOpen_self, Option.bind]
    cases hg : cachesGet cs n with
    | none => simp [cacheMatch_cachePut_ne _ _ hk, cacheMatch, Ne.symm hk]
    | some c => simp [cacheMatch_cachePut_ne _ _ hk]
  · simp [entryAt, openPut, cachesGet_withOpen_ne _ _ hn]

theorem cachesMatch_openPut_ne (cs : CacheStorage) (name : String) {u k : URL} (r : Response)
    (hk : k ≠ u) : cachesMatch (openPut cs name u r) k = cachesMatch cs k := by
  induction cs with
  | nil =>
    simp [openPut, withOpen, cachesMatch, cacheMatch_cachePut_ne _ _ hk, cacheMatch, Ne.symm hk]
  | cons p rest ih =>
    obtain ⟨n, c⟩ := p
    by_cases h : n = name
    · simp [openPut, withOpen, h, cachesMatch, cacheMatch_cachePut_ne _ _ hk]
    · simp only [openPut] at ih
      simp [openPut, withOpen, h, cachesMatch, ih]

/-- After `openPut` a lookup of the written key over all caches gives the new
response, unless a cache consulted earlier answers as it did before. -/
theorem cachesMatch_openPut_self (cs : CacheStorage) (name : String) (u : URL) (r : Response) :
    cachesMatch (openPut cs name u r) u = some r ∨
      cachesMatch (openPut cs name u r) u = cachesMatch cs u := by
  induction cs with
  | nil => simp [openPut, withOpen, cachesMatch, cacheMatch_cachePut_self]
  | cons p rest ih =>
    obtain ⟨n, c⟩ := p
    by_cases h : n = name
    · simp [openPut, withOpen, h, cachesMatch, cacheMatch_cachePut_self]
    · simp only [openPut] at ih
      cases hc : cacheMatch c u with
      | some x => simp [openPut, withOpen, h, cachesMatch, hc]
      | none => simpa [openPut, withOpen, h, cachesMatch, hc] using ih

theorem cachesMatch_openPut_of_noEarlier (cs : CacheStorage) (name : String) (u : URL)
    (r : Response) (h : noEarlierEntry cs name u = true) :
    cachesMatch (openPut cs name u r) u = some r := by
  induction cs with
  | nil => simp [openPut, withOpen, cachesMatch, cacheMatch_cachePut_self]
  | cons p rest ih =>
    obtain ⟨n, c⟩ := p
    by_cases hn : n = name
    · simp [openPut, withOpen, hn, cachesMatch, cacheMatch_cachePut_self]
    · simp only [noEarlierEntry, hn, decide_False, Bool.false_or, Bool.and_eq_true,
        Option.isNone_iff_eq_none] at h
      have := ih h.2
      simp only [openPut] at this
      simp [openPut, withOpen, hn, cachesMatch, h.1, this]

/-- After activation no cache precedes the current one. -/
theorem noEarlierEntry_filter (cs : CacheStorage) (name : String) (u : URL) :
    noEarlierEntry (cs.filter (fun p => decide (p.1 = name))) name u = true := by
  induction cs with
  | nil => rfl
  | cons p rest ih =>
    obtain ⟨n, c⟩ := p
    by_cases h : n = name
    · simp [List.filter, h, noEarlierEntry]
    · simp [List.filter, h, ih]

theorem foldl_cachesDelete (names : List String) (cs : CacheStorage) :
    names.foldl cachesDelete cs = cs.filter (fun p => decide (p.1 ∉ names)) := by
  induction names generalizing cs with
  | nil => simp
  | cons n ns ih =>
    rw [List.foldl_cons, ih, cachesDelete, List.filter_filter]
    apply List.filter_congr
    intro p _
    by_cases h1 : p.1 = n <;> by_cases h2 : p.1 ∈ ns <;> simp [h1, h2]

/-- Activation keeps the caches named `CACHE_NAME`, as they are, and nothing
else. -/
theorem activate_eq_filter (cfg : Config) (cs : CacheStorage) :
    activate cfg cs = cs.filter (fun p => decide (p.1 = cfg.CACHE_NAME)) := by
  rw [activate, foldl_cachesDelete]
  apply List.filter_congr
  intro p hp
  have hmem : p.1 ∈ cachesKeys cs := List.mem_map_of_mem Prod.fst hp
  by_cases h : p.1 = cfg.CACHE_NAME
  · simp [h]
  · simp [h, hmem]

/-! ## The fetch handler -/

/-- The fetch handler runs the strategy of the request's class. -/
theorem fetchHandler_eq_runStrategy (cfg : Config) (req : Request) (cs : CacheStorage)
    (net : FetchResult) :
    fetchHandler cfg req cs net = runStrategy cfg req cs net (classify req) := by
  unfold fetchHandler classify
  split_ifs <;> rfl

theorem isAppShellPath_of (p : String)
    (h : p = "/" ∨ p = "/index.html" ∨ endsWith p ".jsx" = true) : isAppShellPath p = true := by
  rcases h with h | h | h <;> simp [isAppShellPath, h]

theorem fetchHandler_appShell (cfg : Config) (req : Request) (cs : CacheStorage)
    (net : FetchResult) (hget : req.method = "GET")
    (hscheme : req.url.protocol ≠ "chrome-extension:")
    (hpath : isAppShellPath req.url.pathname = true) :
    fetchHandler cfg req cs net = cacheFirstRefresh cfg req cs net := by
  simp [fetchHandler, hget, hscheme, hpath]

theorem fetchHandler_cdn (cfg : Config) (req : Request) (cs : CacheStorage)
    (net : FetchResult) (hget : req.method = "GET")
    (hscheme : req.url.protocol ≠ "chrome-extension:")
    (hpath : isAppShellPath req.url.pathname = false)
    (hhost : isCdnHost req.url.hostname = true) :
    fetchHandler cfg req cs net = cacheFirstStrict cfg req cs net := by
  simp [fetchHandler, hget, hscheme, hpath, hhost]

theorem fetchHandler_generic (cfg : Config) (req : Request) (cs : CacheStorage)
    (net : FetchResult) (hget : req.method = "GET")
    (hscheme : req.url.protocol ≠ "chrome-extension:")
    (hpath : isAppShellPath req.url.pathname = false)
    (hhost : isCdnHost req.url.hostname = false) :
    fetchHandler cfg req cs net = networkFirstFallback cfg req cs net := by
  simp [fetchHandler, hget, hscheme, hpath, hhost]

/-- The storage a fetch event leaves: untouched, or one `openPut` of a 200
response of a GET request under the request's URL. -/
theorem fetchHandler_store (cfg : Config) (req : Request) (cs : CacheStorage)
    (net : FetchResult) :
    (fetchHandler cfg req cs net).2 = cs ∨
      (req.method = "GET" ∧ req.url.protocol ≠ "chrome-extension:" ∧
        ∃ r, net = .response r ∧ r.status = 200 ∧
          (fetchHandler cfg req cs net).2 = openPut cs cfg.CACHE_NAME req.url r) := by
  by_cases hget : req.method = "GET"
  swap
  · left; simp [fetchHandler, hget]
  by_cases hscheme : req.url.protocol = "chrome-extension:"
  · left; simp [fetchHandler, hget, hscheme]
  cases net with
  | networkError =>
    left
    simp only [fetchHandler, hget, hscheme, cacheFirstRefresh, cacheFirstStrict,
      networkFirstFallback]
    split_ifs <;> (try split) <;> simp_all
  | response r =>
    by_cases hr : r.status = 200
    swap
    · left
      simp only [fetchHandler, hget, hscheme, cacheFirstRefresh, cacheFirstStrict,
        networkFirstFallback, storeIfOk, hr]
      split_ifs <;> (try split) <;> simp_all
    · by_cases hsame : (fetchHandler cfg req cs (.response r)).2 = cs
      · left; exact hsame
      · right
        refine ⟨hget, hscheme, r, rfl, hr, ?_⟩
        revert hsame
        simp only [fetchHandler, hget, hscheme, cacheFirstRefresh, cacheFirstStrict,
          networkFirstFallback, storeIfOk, hr]
        split_ifs <;> (try split) <;> simp_all

/-! ## Cache first with background refresh (app shell) -/

/-- C1. For a GET request with a fetchable scheme whose path is `/`,
`/index.html` or ends in `.jsx`, and a storage in which the lookup of the
request finds an entry, the fetch handler replies with that entry, whatever
the background network fetch gives (a 200 response, another status or a
network error). -/
theorem cacheFirstRefresh_hit (cfg : Config) (req : Request) (cs : CacheStorage)
    (net : FetchResult) (cached : Response)
    (hget : req.method = "GET")
    (hscheme : req.url.protocol ≠ "chrome-extension:")
    (hpath : req.url.pathname = "/" ∨ req.url.pathname = "/index.html" ∨
      endsWith req.url.pathname ".jsx" = true)
    (hhit : cachesMatch cs req.url = some cached) :
    (fetchHandler cfg req cs net).1 = .respond cached := by
  rw [fetchHandler_appShell cfg req cs net hget hscheme (isAppShellPath_of _ hpath)]
  cases net <;> simp [cacheFirstRefresh, hhit]

theorem cacheFirstRefresh_hit_witness :
    (exGet "mercacontrol.example" "/app.jsx").method = "GET" ∧
    cachesMatch [("mercacontrol-v1", [(exUrl "mercacontrol.example" "/app.jsx", ⟨200, "v1"⟩)])]
      (exGet "mercacontrol.example" "/app.jsx").url = some ⟨200, "v1"⟩ ∧
    (fetchHandler exConfig (exGet "mercacontrol.example" "/app.jsx")
      [("mercacontrol-v1", [(exUrl "mercacontrol.example" "/app.jsx", ⟨200, "v1"⟩)])]
      (.response ⟨200, "v2"⟩)).1 = .respond ⟨200, "v1"⟩ :=
  ⟨by decide, by decide,
    cacheFirstRefresh_hit exConfig (exGet "mercacontrol.example" "/app.jsx")
      [("mercacontrol-v1", [(exUrl "mercacontrol.example" "/app.jsx", ⟨200, "v1"⟩)])]
      (.response ⟨200, "v2"⟩) ⟨200, "v1"⟩ (by decide) (by decide) (by decide) (by decide)⟩

/-- C10. For an app-shell GET request whose lookup misses: a response of the
network is the reply as it is, whatever its status; it is written to the
current cache under the request's URL when its status is 200 and the storage
is untouched otherwise.  When the network fetch fails the storage is
untouched and the reply is the stored entry of the offline document
(`OFFLINE_URL`) when there is one, and no response at all when there is
none. -/
theorem cacheFirstRefresh_miss (cfg : Config) (req : Request) (cs : CacheStorage)
    (hget : req.method = "GET")
    (hscheme : req.url.protocol ≠ "chrome-extension:")
    (hpath : req.url.pathname = "/" ∨ req.url.pathname = "/index.html" ∨
      endsWith req.url.pathname ".jsx" = true)
    (hmiss : cachesMatch cs req.url = none) :
    (∀ r, (fetchHandler cfg req cs (.response r)).1 = .respond r) ∧
    (∀ r, r.status = 200 →
      (fetchHandler cfg req cs (.response r)).2 = openPut cs cfg.CACHE_NAME req.url r ∧
      entryAt (fetchHandler cfg req cs (.response r)).2 cfg.CACHE_NAME req.url = some r) ∧
    (∀ r, r.status ≠ 200 → (fetchHandler cfg req cs (.response r)).2 = cs) ∧
    (∀ e, cachesMatch cs (resolve cfg.origin cfg.OFFLINE_URL) = some e →
      fetchHandler cfg req cs .networkError = (.respond e, cs)) ∧
    (cachesMatch cs (resolve cfg.origin cfg.OFFLINE_URL) = none →
      fetchHandler cfg req cs .networkError = (.fail, cs)) := by
  have hshell : ∀ net, fetchHandler cfg req cs net = cacheFirstRefresh cfg req cs net :=
    fun net => fetchHandler_appShell cfg req cs net hget hscheme (isAppShellPath_of _ hpath)
  refine ⟨?_, ?_, ?_, ?_, ?_⟩
  · intro r
    simp [hshell, cacheFirstRefresh, hmiss]
  · intro r hr
    have hst : (fetchHandler cfg req cs (.response r)).2 = openPut cs cfg.CACHE_NAME req.url r := by
      simp [hshell, cacheFirstRefresh, hmiss, storeIfOk, hr]
    exact ⟨hst, by rw [hst]; exact entryAt_openPut_self _ _ _ _⟩
  · intro r hr
    simp [hshell, cacheFirstRefresh, hmiss, storeIfOk, hr]
  · intro e he
    simp [hshell, cacheFirstRefresh, hmiss, he, replyOf]
  · intro he
    simp [hshell, cacheFirstRefresh, hmiss, he, replyOf]

theorem cacheFirstRefresh_miss_witness :
    cachesMatch [("mercacontrol-v1", [(exUrl "mercacontrol.example" "/index.html", ⟨200, "shell"⟩)])]
      (exGet "mercacontrol.example" "/app.jsx").url = none ∧
    fetchHandler exConfig (exGet "mercacontrol.example" "/app.jsx")
      [("mercacontrol-v1", [(exUrl "mercacontrol.example" "/index.html", ⟨200, "shell"⟩)])]
      .networkError =
      (.respond ⟨200, "shell"⟩,
        [("mercacontrol-v1", [(exUrl "mercacontrol.example" "/index.html", ⟨200, "shell"⟩)])]) :=
  ⟨by decide,
    (cacheFirstRefresh_miss exConfig (exGet "mercacontrol.example" "/app.jsx")
      [("mercacontrol-v1", [(exUrl "mercacontrol.example" "/index.html", ⟨200, "shell"⟩)])]
      (by decide) (by decide) (by decide) (by decide)).2.2.2.1 ⟨200, "shell"⟩ (by decide)⟩

/-! ## Cache first (CDN hosts) -/

/-- The three host names of the CDN branch pass its host test. -/
theorem isCdnHost_of_eq (h : String)
    (hh : h = "unpkg.com" ∨ h = "fonts.googleapis.com" ∨ h = "fonts.gstatic.com") :
    isCdnHost h = true := by
  rcases hh with hh | hh | hh <;> subst hh <;> decide

/-- C3. For a GET request of the CDN branch (fetchable scheme, path not an
app-shell path, host name passing the host test, as `unpkg.com`,
`fonts.googleapis.com` and `fonts.gstatic.com` do) whose lookup misses and
whose network fetch fails, the reply has status 503 and an empty body and the
storage is unchanged. -/
theorem cacheFirstStrict_networkError (cfg : Config) (req : Request) (cs : CacheStorage)
    (hget : req.method = "GET")
    (hscheme : req.url.protocol ≠ "chrome-extension:")
    (hpath : isAppShellPath req.url.pathname = false)
    (hhost : req.url.hostname = "unpkg.com" ∨ req.url.hostname = "fonts.googleapis.com" ∨
      req.url.hostname = "fonts.gstatic.com" ∨ isCdnHost req.url.hostname = true)
    (hmiss : cachesMatch cs req.url = none) :
    fetchHandler cfg req cs .networkError = (.respond ⟨503, ""⟩, cs) := by
  have hcdn : isCdnHost req.url.hostname = true := by
    rcases hhost with h | h | h | h
    · exact isCdnHost_of_eq _ (Or.inl h)
    · exact isCdnHost_of_eq _ (Or.inr (Or.inl h))
    · exact isCdnHost_of_eq _ (Or.inr (Or.inr h))
    · exact h
  rw [fetchHandler_cdn cfg req cs _ hget hscheme hpath hcdn]
  simp [cacheFirstStrict, hmiss]

theorem cacheFirstStrict_networkError_witness :
    cachesMatch [("mercacontrol-v1", [])] (exGet "fonts.gstatic.com" "/s/inter.woff2").url = none ∧
    fetchHandler exConfig (exGet "fonts.gstatic.com" "/s/inter.woff2") [("mercacontrol-v1", [])]
      .networkError = (.respond ⟨503, ""⟩, [("mercacontrol-v1", [])]) :=
  ⟨by decide,
    cacheFirstStrict_networkError exConfig (exGet "fonts.gstatic.com" "/s/inter.woff2")
      [("mercacontrol-v1", [])] (by decide) (by decide) (by decide) (by decide) (by decide)⟩

/-- C8, as the claim states it, fails: a CDN request that misses the cache
and gets a 404 from the network is answered with that 404, not with an empty
503. -/
theorem cacheFirstStrict_non200_not_503 :
    classify (exGet "unpkg.com" "/react@18/umd/react.production.min.js") = .cdnAsset ∧
    cachesMatch [] (exGet "unpkg.com" "/react@18/umd/react.production.min.js").url = none ∧
    (fetchHandler exConfig (exGet "unpkg.com" "/react@18/umd/react.production.min.js") []
      (.response ⟨404, "Not found"⟩)).1 = .respond ⟨404, "Not found"⟩ ∧
    (fetchHandler exConfig (exGet "unpkg.com" "/react@18/umd/react.production.min.js") []
      (.response ⟨404, "Not found"⟩)).1 ≠ .respond ⟨503, ""⟩ := by
  decide

/-- C8, amended. For a GET request of the CDN branch whose lookup misses and
whose network fetch resolves to a response of a status other than 200, the
reply is that network response, unchanged, and the storage is unchanged. -/
theorem cacheFirstStrict_non200 (cfg : Config) (req : Request) (cs : CacheStorage)
    (r : Response)
    (hget : req.method = "GET")
    (hscheme : req.url.protocol ≠ "chrome-extension:")
    (hpath : isAppShellPath req.url.pathname = false)
    (hhost : isCdnHost req.url.hostname = true)
    (hmiss : cachesMatch cs req.url = none)
    (hstatus : r.status ≠ 200) :
    fetchHandler cfg req cs (.response r) = (.respond r, cs) := by
  rw [fetchHandler_cdn cfg req cs _ hget hscheme hpath hhost]
  simp [cacheFirstStrict, hmiss, storeIfOk, hstatus]

theorem cacheFirstStrict_non200_witness :
    cachesMatch [] (exGet "unpkg.com" "/lib.js").url = none ∧
    fetchHandler exConfig (exGet "unpkg.com" "/lib.js") [] (.response ⟨500, "oops"⟩) =
      (.respond ⟨500, "oops"⟩, []) :=
  ⟨by decide,
    cacheFirstStrict_non200 exConfig (exGet "unpkg.com" "/lib.js") [] ⟨500, "oops"⟩
      (by decide) (by decide) (by decide) (by decide) (by decide) (by decide)⟩

/-! ## Routing -/

/-- C9, as the claim states it, fails: `unpkg.com.example.net` is none of the
three host names, yet a request to it takes the CDN branch and not the
generic one; with an empty storage and a failing network it is answered with
the CDN branch's empty 503, where the generic branch gives no response. -/
theorem classify_substring_host :
    (exGet "unpkg.com.example.net" "/lib.js").method = "GET" ∧
    (exGet "unpkg.com.example.net" "/lib.js").url.protocol ≠ "chrome-extension:" ∧
    isAppShellPath (exGet "unpkg.com.example.net" "/lib.js").url.pathname = false ∧
    (exGet "unpkg.com.example.net" "/lib.js").url.hostname ∉
      ["unpkg.com", "fonts.googleapis.com", "fonts.gstatic.com"] ∧
    classify (exGet "unpkg.com.example.net" "/lib.js") = .cdnAsset ∧
    classify (exGet "unpkg.com.example.net" "/lib.js") ≠ .generic ∧
    fetchHandler exConfig (exGet "unpkg.com.example.net" "/lib.js") [] .networkError =
      (.respond ⟨503, ""⟩, []) ∧
    networkFirstFallback exConfig (exGet "unpkg.com.example.net" "/lib.js") [] .networkError =
      (.fail, []) := by
  decide

/-- C9, amended. For a GET request with a fetchable scheme whose path is not
an app-shell path, the request takes the CDN branch exactly when its host
name contains `unpkg.com`, `fonts.googleapis.com` or `fonts.gstatic.com` as a
substring (so the three host names themselves do), and the generic branch
exactly when it contains none of them; the fetch handler then runs the
strategy of that branch. -/
theorem classify_cdn_iff_includes (cfg : Config) (req : Request) (cs : CacheStorage)
    (net : FetchResult)
    (hget : req.method = "GET")
    (hscheme : req.url.protocol ≠ "chrome-extension:")
    (hpath : isAppShellPath req.url.pathname = false) :
    (classify req = .cdnAsset ↔
      (includes req.url.hostname "unpkg.com" = true ∨
        includes req.url.hostname "fonts.googleapis.com" = true ∨
        includes req.url.hostname "fonts.gstatic.com" = true)) ∧
    (classify req = .generic ↔
      ¬ (includes req.url.hostname "unpkg.com" = true ∨
        includes req.url.hostname "fonts.googleapis.com" = true ∨
        includes req.url.hostname "fonts.gstatic.com" = true)) ∧
    (req.url.hostname ∈ ["unpkg.com", "fonts.googleapis.com", "fonts.gstatic.com"] →
      classify req = .cdnAsset) ∧
    (classify req = .cdnAsset →
      fetchHandler cfg req cs net = cacheFirstStrict cfg req cs net) ∧
    (classify req = .generic →
      fetchHandler cfg req cs net = networkFirstFallback cfg req cs net) := by
  have hcls : classify req = if isCdnHost req.url.hostname then .cdnAsset else .generic := by
    simp [classify, hget, hscheme, hpath]
  have hhost : isCdnHost req.url.hostname = true ↔
      (includes req.url.hostname "unpkg.com" = true ∨
        includes req.url.hostname "fonts.googleapis.com" = true ∨
        includes req.url.hostname "fonts.gstatic.com" = true) := by
    simp [isCdnHost, or_assoc]
  rw [← hhost]
  refine ⟨?_, ?_, ?_, ?_, ?_⟩
  · rw [hcls]; by_cases h : isCdnHost req.url.hostname = true <;> simp [h]
  · rw [hcls]; by_cases h : isCdnHost req.url.hostname = true <;> simp [h]
  · intro hmem
    have : isCdnHost req.url.hostname = true := by
      apply isCdnHost_of_eq
      simpa using hmem
    rw [hcls]; simp [this]
  · intro h
    rw [fetchHandler_eq_runStrategy, h]; rfl
  · intro h
    rw [fetchHandler_eq_runStrategy, h]; rfl

theorem classify_cdn_iff_includes_witness :
    (exGet "www.unpkg.com" "/lib.js").method = "GET" ∧
    classify (exGet "www.unpkg.com" "/lib.js") = .cdnAsset :=
  ⟨by decide,
    (classify_cdn_iff_includes exConfig (exGet "www.unpkg.com" "/lib.js") [] .networkError
      (by decide) (by decide) (by decide)).1.mpr (Or.inl (by decide))⟩

/-! ## Network first (remaining requests) -/

/-- C7, as the claim states it, fails: a generic request whose URL is in the
cache and whose network fetch resolves to a 500 is answered with that 500,
not with the cached entry.  Also, a generic request whose URL is not in the
cache and whose network fetch fails gets no response although the offline
document is in the cache. -/
theorem networkFirstFallback_non200_not_cached :
    classify (exGet "mercacontrol.example" "/api/registros") = .generic ∧
    cachesMatch
      [("mercacontrol-v1", [(exUrl "mercacontrol.example" "/api/registros", ⟨200, "[]"⟩)])]
      (exGet "mercacontrol.example" "/api/registros").url = some ⟨200, "[]"⟩ ∧
    (fetchHandler exConfig (exGet "mercacontrol.example" "/api/registros")
      [("mercacontrol-v1", [(exUrl "mercacontrol.example" "/api/registros", ⟨200, "[]"⟩)])]
      (.response ⟨500, "error"⟩)).1 = .respond ⟨500, "error"⟩ ∧
    (fetchHandler exConfig (exGet "mercacontrol.example" "/api/registros")
      [("mercacontrol-v1", [(exUrl "mercacontrol.example" "/api/registros", ⟨200, "[]"⟩)])]
      (.response ⟨500, "error"⟩)).1 ≠ .respond ⟨200, "[]"⟩ ∧
    cachesMatch [("mercacontrol-v1", [(exUrl "mercacontrol.example" "/index.html", ⟨200, "shell"⟩)])]
      (resolve exConfig.origin exConfig.OFFLINE_URL) = some ⟨200, "shell"⟩ ∧
    (fetchHandler exConfig (exGet "mercacontrol.example" "/api/registros")
      [("mercacontrol-v1", [(exUrl "mercacontrol.example" "/index.html", ⟨200, "shell"⟩)])]
      .networkError).1 = .fail := by
  decide

/-- C7, amended. For a generic GET request (fetchable scheme, path not an
app-shell path, host failing the CDN host test): when the network fetch fails
and the lookup of the request finds an entry, the reply is that entry; when
the network fetch resolves to a response of a status other than 200, the
reply is that response as it is; the storage is unchanged in both cases. -/
theorem networkFirstFallback_failure (cfg : Config) (req : Request) (cs : CacheStorage)
    (hget : req.method = "GET")
    (hscheme : req.url.protocol ≠ "chrome-extension:")
    (hpath : isAppShellPath req.url.pathname = false)
    (hhost : isCdnHost req.url.hostname = false) :
    (∀ e, cachesMatch cs req.url = some e →
      fetchHandler cfg req cs .networkError = (.respond e, cs)) ∧
    (∀ r, r.status ≠ 200 → fetchHandler cfg req cs (.response r) = (.respond r, cs)) := by
  have hgen : ∀ net, fetchHandler cfg req cs net = networkFirstFallback cfg req cs net :=
    fun net => fetchHandler_generic cfg req cs net hget hscheme hpath hhost
  refine ⟨?_, ?_⟩
  · intro e he
    simp [hgen, networkFirstFallback, promiseOr, he, replyOf]
  · intro r hr
    simp [hgen, networkFirstFallback, storeIfOk, hr]

theorem networkFirstFallback_failure_witness :
    (exGet "mercacontrol.example" "/api/registros").method = "GET" ∧
    fetchHandler exConfig (exGet "mercacontrol.example" "/api/registros")
      [("mercacontrol-v1", [(exUrl "mercacontrol.example" "/api/registros", ⟨200, "[]"⟩)])]
      .networkError =
      (.respond ⟨200, "[]"⟩,
        [("mercacontrol-v1", [(exUrl "mercacontrol.example" "/api/registros", ⟨200, "[]"⟩)])]) :=
  ⟨by decide,
    (networkFirstFallback_failure exConfig (exGet "mercacontrol.example" "/api/registros")
      [("mercacontrol-v1", [(exUrl "mercacontrol.example" "/api/registros", ⟨200, "[]"⟩)])]
      (by decide) (by decide) (by decide) (by decide)).1 ⟨200, "[]"⟩ (by decide)⟩

/-- C2, as the claim states it, fails: lookups go through every cache of the
storage, writes go to the current one.  With a cache created earlier that
holds an entry for the request, a 200 response is the reply and is written to
the current cache, yet the same request handled again on the resulting
storage with the network down is answered with the entry of the older
cache. -/
theorem networkFirstFallback_roundTrip_shadowed :
    classify (exGet "mercacontrol.example" "/api/registros") = .generic ∧
    (fetchHandler exConfig (exGet "mercacontrol.example" "/api/registros")
      [("legacy", [(exUrl "mercacontrol.example" "/api/registros", ⟨200, "old"⟩)])]
      (.response ⟨200, "new"⟩)) =
      (.respond ⟨200, "new"⟩,
        [("legacy", [(exUrl "mercacontrol.example" "/api/registros", ⟨200, "old"⟩)]),
         ("mercacontrol-v1", [(exUrl "mercacontrol.example" "/api/registros", ⟨200, "new"⟩)])]) ∧
    (fetchHandler exConfig (exGet "mercacontrol.example" "/api/registros")
      (fetchHandler exConfig (exGet "mercacontrol.example" "/api/registros")
        [("legacy", [(exUrl "mercacontrol.example" "/api/registros", ⟨200, "old"⟩)])]
        (.response ⟨200, "new"⟩)).2
      .networkError).1 = .respond ⟨200, "old"⟩ ∧
    (Reply.respond ⟨200, "old"⟩ ≠ Reply.respond ⟨200, "new"⟩) := by
  decide

/-- C2, amended. For a generic GET request and a storage in which no cache
consulted before the current one holds an entry for the request (as after
activation, which leaves the current cache alone): when the network fetch resolves to a response of status 200, the
reply is that response, the current cache afterwards holds it under the
request's URL and a lookup of the request finds it; and the same request
handled again on the resulting storage with a failing network is answered
with that response.  The storage that activation leaves satisfies the
condition for every URL. -/
theorem networkFirstFallback_roundTrip (cfg : Config) (req : Request) (cs : CacheStorage)
    (r : Response)
    (hget : req.method = "GET")
    (hscheme : req.url.protocol ≠ "chrome-extension:")
    (hpath : isAppShellPath req.url.pathname = false)
    (hhost : isCdnHost req.url.hostname = false)
    (hstatus : r.status = 200)
    (hearlier : noEarlierEntry cs cfg.CACHE_NAME req.url = true) :
    (fetchHandler cfg req cs (.response r)).1 = .respond r ∧
    entryAt (fetchHandler cfg req cs (.response r)).2 cfg.CACHE_NAME req.url = some r ∧
    cachesMatch (fetchHandler cfg req cs (.response r)).2 req.url = some r ∧
    (fetchHandler cfg req (fetchHandler cfg req cs (.response r)).2 .networkError).1 =
      .respond r ∧
    (∀ cs0 u, noEarlierEntry (activate cfg cs0) cfg.CACHE_NAME u = true) := by
  have hgen : ∀ cs net, fetchHandler cfg req cs net = networkFirstFallback cfg req cs net :=
    fun cs net => fetchHandler_generic cfg req cs net hget hscheme hpath hhost
  have hfst : (fetchHandler cfg req cs (.response r)).1 = .respond r := by
    simp [hgen, networkFirstFallback]
  have hsnd : (fetchHandler cfg req cs (.response r)).2 = openPut cs cfg.CACHE_NAME req.url r := by
    simp [hgen, networkFirstFallback, storeIfOk, hstatus]
  have hm : cachesMatch (openPut cs cfg.CACHE_NAME req.url r) req.url = some r :=
    cachesMatch_openPut_of_noEarlier cs cfg.CACHE_NAME req.url r hearlier
  refine ⟨hfst, ?_, ?_, ?_, ?_⟩
  · rw [hsnd]; exact entryAt_openPut_self _ _ _ _
  · rw [hsnd]; exact hm
  · rw [hsnd, hgen]
    simp [networkFirstFallback, promiseOr, hm, replyOf]
  · intro cs0 u
    rw [activate_eq_filter]
    exact noEarlierEntry_filter cs0 cfg.CACHE_NAME u

theorem networkFirstFallback_roundTrip_witness :
    noEarlierEntry
      [("mercacontrol-v1", [(exUrl "mercacontrol.example" "/api/registros", ⟨200, "old"⟩)]),
       ("tiles", [(exUrl "mercacontrol.example" "/api/registros", ⟨200, "other"⟩)])]
      exConfig.CACHE_NAME (exGet "mercacontrol.example" "/api/registros").url = true ∧
    (fetchHandler exConfig (exGet "mercacontrol.example" "/api/registros")
      (fetchHandler exConfig (exGet "mercacontrol.example" "/api/registros")
        [("mercacontrol-v1", [(exUrl "mercacontrol.example" "/api/registros", ⟨200, "old"⟩)]),
         ("tiles", [(exUrl "mercacontrol.example" "/api/registros", ⟨200, "other"⟩)])]
        (.response ⟨200, "new"⟩)).2
      .networkError).1 = .respond ⟨200, "new"⟩ :=
  ⟨by decide,
    (networkFirstFallback_roundTrip exConfig (exGet "mercacontrol.example" "/api/registros")
      [("mercacontrol-v1", [(exUrl "mercacontrol.example" "/api/registros", ⟨200, "old"⟩)]),
       ("tiles", [(exUrl "mercacontrol.example" "/api/registros", ⟨200, "other"⟩)])]
      ⟨200, "new"⟩ (by decide) (by decide) (by decide) (by decide) (by decide)
      (by decide)).2.2.2.1⟩

/-! ## Frame of the fetch handler -/

/-- C6. For every request (any method and URL), storage and network outcome,
with `cs'` the storage after the fetch handler and its background work:
every cache holds under every URL other than the request's what it held
before, caches other than the current one are untouched, and lookups of other
URLs are unchanged; if the storage changed at all (in particular if any cache
holds something else under the request's URL) then the method is GET, the
scheme is not `chrome-extension:` and the network fetch resolved to a
response of status 200, which the current cache then holds under the
request's URL; and a lookup of the request's URL that gives something else
than before gives that response.  A request that is not GET, a network error and a response of
another status each leave the storage as it was. -/
theorem fetchHandler_frame (cfg : Config) (req : Request) (cs : CacheStorage)
    (net : FetchResult) :
    (∀ n k, k ≠ req.url →
      entryAt (fetchHandler cfg req cs net).2 n k = entryAt cs n k) ∧
    (∀ n, n ≠ cfg.CACHE_NAME →
      cachesGet (fetchHandler cfg req cs net).2 n = cachesGet cs n) ∧
    (∀ k, k ≠ req.url →
      cachesMatch (fetchHandler cfg req cs net).2 k = cachesMatch cs k) ∧
    ((fetchHandler cfg req cs net).2 ≠ cs →
      req.method = "GET" ∧ req.url.protocol ≠ "chrome-extension:" ∧
        ∃ r, net = .response r ∧ r.status = 200 ∧
          entryAt (fetchHandler cfg req cs net).2 cfg.CACHE_NAME req.url = some r) ∧
    (∀ n, entryAt (fetchHandler cfg req cs net).2 n req.url ≠ entryAt cs n req.url →
      n = cfg.CACHE_NAME ∧ req.method = "GET" ∧ req.url.protocol ≠ "chrome-extension:" ∧
        ∃ r, net = .response r ∧ r.status = 200 ∧
          entryAt (fetchHandler cfg req cs net).2 n req.url = some r) ∧
    (cachesMatch (fetchHandler cfg req cs net).2 req.url ≠ cachesMatch cs req.url →
      ∃ r, net = .response r ∧ r.status = 200 ∧
        cachesMatch (fetchHandler cfg req cs net).2 req.url = some r) ∧
    (req.method ≠ "GET" → (fetchHandler cfg req cs net).2 = cs) ∧
    (net = .networkError → (fetchHandler cfg req cs net).2 = cs) ∧
    (∀ r, net = .response r → r.status ≠ 200 → (fetchHandler cfg req cs net).2 = cs) := by
  have key := fetchHandler_store cfg req cs net
  have hchg : (fetchHandler cfg req cs net).2 ≠ cs →
      req.method = "GET" ∧ req.url.protocol ≠ "chrome-extension:" ∧
        ∃ r, net = .response r ∧ r.status = 200 ∧
          entryAt (fetchHandler cfg req cs net).2 cfg.CACHE_NAME req.url = some r := by
    intro hne
    rcases key with h | ⟨hg, hs, r, hn, hr, hst⟩
    · exact absurd h hne
    · exact ⟨hg, hs, r, hn, hr, by rw [hst]; exact entryAt_openPut_self _ _ _ _⟩
  refine ⟨?_, ?_, ?_, hchg, ?_, ?_, ?_, ?_, ?_⟩
  · intro n k hk
    rcases key with h | ⟨_, _, r, _, _, hst⟩
    · rw [h]
    · rw [hst]; exact entryAt_openPut_other _ _ _ _ _ _ (Or.inr hk)
  · intro n hn
    rcases key with h | ⟨_, _, r, _, _, hst⟩
    · rw [h]
    · rw [hst]; exact cachesGet_withOpen_ne _ _ hn
  · intro k hk
    rcases key with h | ⟨_, _, r, _, _, hst⟩
    · rw [h]
    · rw [hst]; exact cachesMatch_openPut_ne _ _ _ hk
  · intro n hne
    have hcs : (fetchHandler cfg req cs net).2 ≠ cs := by
      intro h; rw [h] at hne; exact hne rfl
    obtain ⟨hg, hs, r, hn, hr, he⟩ := hchg hcs
    have hname : n = cfg.CACHE_NAME := by
      by_contra hcon
      rcases key with h | ⟨_, _, r', _, _, hst⟩
      · exact hcs h
      · rw [hst, entryAt_openPut_other _ _ _ _ _ _ (Or.inl hcon)] at hne
        exact hne rfl
    exact ⟨hname, hg, hs, r, hn, hr, by rw [hname]; exact he⟩
  · intro hne
    rcases key with h | ⟨_, _, r, hn, hr, hst⟩
    · rw [h] at hne; exact absurd rfl hne
    · refine ⟨r, hn, hr, ?_⟩
      rw [hst] at hne ⊢
      rcases cachesMatch_openPut_self cs cfg.CACHE_NAME req.url r with h | h
      · exact h
      · exact absurd h hne
  · intro hm
    by_contra hne
    exact hm (hchg hne).1
  · intro hn
    by_contra hne
    obtain ⟨_, _, r, hr, _⟩ := hchg hne
    rw [hn] at hr
    exact FetchResult.noConfusion hr
  · intro r hn hs
    by_contra hne
    obtain ⟨_, _, r', hr, hs', _⟩ := hchg hne
    rw [hn] at hr
    injection hr with hr
    rw [hr] at hs
    exact hs hs'

/-! ## Activate -/

theorem cachesGet_filter_self (cs : CacheStorage) (name : String) :
    cachesGet (cs.filter (fun p => decide (p.1 = name))) name = cachesGet cs name := by
  induction cs with
  | nil => rfl
  | cons p rest ih =>
    obtain ⟨n, c⟩ := p
    by_cases h : n = name
    · simp [List.filter, h, cachesGet]
    · simp [List.filter, h, cachesGet, ih]

/-- C4. For every storage and every current version name, the cache names
after the activate handler are exactly the names that were there before and
equal the current version, and the current-version cache has the contents it
had; with caches `v1` and `v2` and current version `v2` what remains is the
cache `v2`, unchanged. -/
theorem activate_evicts (cfg : Config) (cs : CacheStorage) :
    cachesKeys (activate cfg cs) =
      (cachesKeys cs).filter (fun n => decide (n = cfg.CACHE_NAME)) ∧
    (∀ n, n ∈ cachesKeys (activate cfg cs) ↔ n ∈ cachesKeys cs ∧ n = cfg.CACHE_NAME) ∧
    cachesGet (activate cfg cs) cfg.CACHE_NAME = cachesGet cs cfg.CACHE_NAME ∧
    (∀ (o : Origin) (off : UrlRef) (pre : List UrlRef) (c1 c2 : Cache),
      activate ⟨o, "v2", off, pre⟩ [("v1", c1), ("v2", c2)] = [("v2", c2)] ∧
      cachesKeys (activate ⟨o, "v2", off, pre⟩ [("v1", c1), ("v2", c2)]) = ["v2"]) := by
  have hkeys : cachesKeys (activate cfg cs) =
      (cachesKeys cs).filter (fun n => decide (n = cfg.CACHE_NAME)) := by
    rw [activate_eq_filter, cachesKeys, cachesKeys, List.filter_map]
    rfl
  refine ⟨hkeys, ?_, ?_, ?_⟩
  · intro n
    rw [hkeys, List.mem_filter]
    simp
  · rw [activate_eq_filter]
    exact cachesGet_filter_self cs cfg.CACHE_NAME
  · intro o off pre c1 c2
    have h : activate ⟨o, "v2", off, pre⟩ [("v1", c1), ("v2", c2)] = [("v2", c2)] := by
      rw [activate_eq_filter]
      simp [List.filter]
    exact ⟨h, by rw [h]; rfl⟩

/-! ## Install -/

/-- One caught precache step writes the fetched response when it is
acceptable and does nothing otherwise. -/
theorem addCaught_eq (net : URL → FetchResult) (c : Cache) (u : URL) :
    addCaught net c u =
      match net u with
      | .response r => if addable r = true then cachePut c u r else c
      | .networkError => c := by
  unfold addCaught cacheAdd
  cases net u with
  | networkError => rfl
  | response r => by_cases h : addable r = true <;> simp [h]

/-- When `cache.add` fulfils: the fetch gave a response of acceptable status. -/
theorem cacheAdd_fulfilled_iff (net : URL → FetchResult) (c : Cache) (u : URL) :
    (∃ c', cacheAdd net c u = .fulfilled c') ↔ ∃ r, net u = .response r ∧ addable r = true := by
  unfold cacheAdd
  cases net u with
  | networkError => simp
  | response r => by_cases h : addable r = true <;> simp [h]

/-- What the cache holds after the precache steps. -/
theorem cacheMatch_foldl_addCaught (net : URL → FetchResult) (urls : List URL) (c : Cache)
    (u : URL) (r : Response) :
    cacheMatch (urls.foldl (addCaught net) c) u = some r ↔
      (u ∈ urls ∧ net u = .response r ∧ addable r = true) ∨
      ((u ∉ urls ∨ ∀ r', net u = .response r' → addable r' = false) ∧ cacheMatch c u = some r) := by
  induction urls generalizing c with
  | nil => simp
  | cons v vs ih =>
    rw [List.foldl_cons, ih, addCaught_eq]
    by_cases huv : u = v
    · subst huv
      cases hn : net u with
      | networkError => simp
      | response r0 =>
        by_cases ha : addable r0 = true
        · simp only [ha, if_true, cacheMatch_cachePut_self]
          constructor
          · rintro (⟨_, h1, h2⟩ | ⟨_, h⟩)
            · exact Or.inl ⟨List.mem_cons_self _ _, h1, h2⟩
            · injection h with h
              subst h
              exact Or.inl ⟨List.mem_cons_self _ _, rfl, ha⟩
          · rintro (⟨_, h1, h2⟩ | ⟨h, _⟩)
            · by_cases hmem : u ∈ vs
              · exact Or.inl ⟨hmem, h1, h2⟩
              · injection h1 with h1
                subst h1
                exact Or.inr ⟨Or.inl hmem, rfl⟩
            · rcases h with h | h
              · exact absurd (List.mem_cons_self _ _) h
              · have := h r0 rfl
                rw [ha] at this
                exact absurd this (by decide)
        · have ha' : addable r0 = false := by simpa using ha
          have hno : ¬ (r0 = r ∧ addable r = true) := by
            rintro ⟨h1, h2⟩
            rw [← h1, ha'] at h2
            exact absurd h2 (by decide)
          simp [ha', hno]
    · have hput : ∀ r0, cacheMatch (cachePut c v r0) u = cacheMatch c u :=
        fun r0 => cacheMatch_cachePut_ne c r0 huv
      have hstep : cacheMatch (match net v with
          | .response r => if addable r = true then cachePut c v r else c
          | .networkError => c) u = cacheMatch c u := by
        cases net v with
        | networkError => rfl
        | response r0 => by_cases ha : addable r0 = true <;> simp [ha, hput]
      rw [hstep]
      simp [huv]

/-- C5. For every precache list and every assignment of fetch outcomes to
URLs, the install handler's promise is fulfilled, never rejected; when the
current cache starts without entries, it afterwards holds an entry under a
URL exactly when the URL is in the precache list and `cache.add` for it
succeeded (the fetch gave a response of acceptable status), and the entry is
that response; the other caches are untouched.  With the list `/`,
`/index.html`, the fetch of `/` failing and that of `/index.html` giving a
200, the cache ends with the entry for `/index.html` alone. -/
theorem install_isolates_failures (cfg : Config) (net : URL → FetchResult) (cs : CacheStorage)
    (hempty : ∀ u, entryAt cs cfg.CACHE_NAME u = none) :
    ∃ cs', install cfg net cs = .fulfilled cs' ∧
      (∀ u r, entryAt cs' cfg.CACHE_NAME u = some r ↔
        (u ∈ cfg.PRECACHE_ASSETS.map (resolve cfg.origin) ∧
          net u = .response r ∧ addable r = true)) ∧
      (∀ u, (entryAt cs' cfg.CACHE_NAME u).isSome = true ↔
        (u ∈ cfg.PRECACHE_ASSETS.map (resolve cfg.origin) ∧
          ∃ c', cacheAdd net [] u = .fulfilled c')) ∧
      (∀ n, n ≠ cfg.CACHE_NAME → cachesGet cs' n = cachesGet cs n) ∧
      install ⟨exOrigin, "mercacontrol-v1", .path "/index.html", [.path "/", .path "/index.html"]⟩
          (fun u => if u.pathname = "/index.html" then .response ⟨200, "<html>"⟩
            else .networkError) [] =
        .fulfilled [("mercacontrol-v1",
          [(exUrl "mercacontrol.example" "/index.html", ⟨200, "<html>"⟩)])] := by
  have hstart : cacheMatch ((cachesGet cs cfg.CACHE_NAME).getD []) = fun _ => none := by
    funext u
    have := hempty u
    unfold entryAt at this
    cases hg : cachesGet cs cfg.CACHE_NAME with
    | none => rfl
    | some c => rw [hg] at this; simpa using this
  have hentry : ∀ u r, entryAt (withOpen cs cfg.CACHE_NAME
      (fun cache => (cfg.PRECACHE_ASSETS.map (resolve cfg.origin)).foldl (addCaught net) cache))
      cfg.CACHE_NAME u = some r ↔
        (u ∈ cfg.PRECACHE_ASSETS.map (resolve cfg.origin) ∧
          net u = .response r ∧ addable r = true) := by
    intro u r
    simp only [entryAt, cachesGet_withOpen_self, Option.bind]
    rw [cacheMatch_foldl_addCaught, hstart]
    simp
  refine ⟨_, rfl, hentry, ?_, ?_, by decide⟩
  · intro u
    rw [Option.isSome_iff_exists]
    constructor
    · rintro ⟨r, hr⟩
      obtain ⟨hmem, hnet, hadd⟩ := (hentry u r).mp hr
      exact ⟨hmem, (cacheAdd_fulfilled_iff net [] u).mpr ⟨r, hnet, hadd⟩⟩
    · rintro ⟨hmem, hadd⟩
      obtain ⟨r, hnet, hok⟩ := (cacheAdd_fulfilled_iff net [] u).mp hadd
      exact ⟨r, (hentry u r).mpr ⟨hmem, hnet, hok⟩⟩
  · intro n hn
    exact cachesGet_withOpen_ne _ _ hn

theorem install_isolates_failures_witness :
    (∀ u, entryAt [] "mercacontrol-v1" u = none) ∧
    ∃ cs', install
        ⟨exOrigin, "mercacontrol-v1", .path "/index.html", [.path "/", .path "/index.html"]⟩
        (fun u => if u.pathname = "/index.html" then .response ⟨200, "<html>"⟩
          else .networkError) [] = .fulfilled cs' ∧
      (∀ u r, entryAt cs' "mercacontrol-v1" u = some r ↔
        (u ∈ [exUrl "mercacontrol.example" "/", exUrl "mercacontrol.example" "/index.html"] ∧
          (if u.pathname = "/index.html" then FetchResult.response ⟨200, "<html>"⟩
            else .networkError) = .response r ∧ addable r = true)) :=
  ⟨fun _ => rfl,
    let ⟨cs', h1, h2, _⟩ := install_isolates_failures
      ⟨exOrigin, "mercacontrol-v1", .path "/index.html", [.path "/", .path "/index.html"]⟩
      (fun u => if u.pathname = "/index.html" then .response ⟨200, "<html>"⟩
        else .networkError) [] (fun _ => rfl)
    ⟨cs', h1, h2⟩⟩

end SW
